import Mathlib

/-!
Verification development for the MPU9250 DMP driver (`src/mpu9250.c`).

The embedding below is a shallow model of the driver's pure decision logic:
machine integers are modelled as `Nat`/`Int` with explicit two's-complement
reinterpretation where the C code relies on it (the target is 32-bit ARM, so
`long` is 32 bits wide), C `float`/`double` arithmetic is modelled over `ℚ`,
and hardware/bus side effects are modelled as explicit traces of `HwAction`
values returned alongside the function result.  Code of the repository that
is referenced but not present under `src/` (register addresses and numeric
constants from a missing private header, and the trigonometric vector
library) is either modelled from the spec (marked in the doc comment) or
taken as a function parameter.
-/

namespace Mpu9250

/-- FIFO packet length with the magnetometer disabled (`FIFO_LEN_NO_MAG`,
mpu9250.c line 21). -/
def FIFO_LEN_NO_MAG : ℕ := 28

/-- FIFO packet length with the magnetometer enabled (`FIFO_LEN_MAG`,
mpu9250.c line 22). -/
def FIFO_LEN_MAG : ℕ := 35

/-- Quaternion magnitude tolerance (`QUAT_ERROR_THRESH`, line 25). -/
def QUAT_ERROR_THRESH : ℤ := 2 ^ 24

/-- Nominal unity value of the scaled squared quaternion magnitude
(`QUAT_MAG_SQ_NORMALIZED`, line 26). -/
def QUAT_MAG_SQ_NORMALIZED : ℤ := 2 ^ 28

/-- Lower acceptance bound (`QUAT_MAG_SQ_MIN`, line 27). -/
def QUAT_MAG_SQ_MIN : ℤ := QUAT_MAG_SQ_NORMALIZED - QUAT_ERROR_THRESH

/-- Upper acceptance bound (`QUAT_MAG_SQ_MAX`, line 28). -/
def QUAT_MAG_SQ_MAX : ℤ := QUAT_MAG_SQ_NORMALIZED + QUAT_ERROR_THRESH

/-- Reinterpret a natural number as a two's-complement 16-bit signed value,
modelling C casts to `int16_t`. -/
def toInt16 (n : ℕ) : ℤ :=
  if n % 2 ^ 16 < 2 ^ 15 then (n % 2 ^ 16 : ℤ) else (n % 2 ^ 16 : ℤ) - 2 ^ 16

/-- Reinterpret a natural number as a two's-complement 32-bit signed value,
modelling the 32-bit `long` of the ARM target. -/
def toInt32 (n : ℕ) : ℤ :=
  if n % 2 ^ 32 < 2 ^ 31 then (n % 2 ^ 32 : ℤ) else (n % 2 ^ 32 : ℤ) - 2 ^ 32

/-- Wrap an integer into the 32-bit two's-complement range, modelling
overflow of 32-bit `long` arithmetic on the ARM target. -/
def wrap32 (z : ℤ) : ℤ :=
  if z % 2 ^ 32 < 2 ^ 31 then z % 2 ^ 32 else z % 2 ^ 32 - 2 ^ 32

/-- Arithmetic right shift by 16 of a (32-bit) signed value, modelling
`quat[k] >> 16` at mpu9250.c lines 1456-1459. -/
def asr16 (z : ℤ) : ℤ := Int.fdiv z (2 ^ 16)

/-!
FIFO alignment / resynchronization protocol of `read_dmp_fifo`
(mpu9250.c lines 1311-1377).
-/

/-- Outcome of the FIFO count alignment step of `read_dmp_fifo`. -/
inductive FifoAlign where
  /-- The re-read of the FIFO count register failed over the bus (line
  1340-1345): return -1. -/
  | i2cFail : FifoAlign
  /-- The count exceeded two packets (line 1323): FIFO reset and return -1. -/
  | resetFail : FifoAlign
  /-- After the grace interval the count was still not one of the two valid
  totals (line 1348-1354): return -1.  The flag records whether a FIFO reset
  was issued, which the source only does under `show_warnings` when it is
  not the first run. -/
  | badCount (resetDone : Bool) : FifoAlign
  /-- The defensive final `else` of the offset selection (line 1372-1377). -/
  | falseInterrupt : FifoAlign
  /-- Decode proceeds at this byte offset into the FIFO buffer. -/
  | decodeAt (offset : ℕ) : FifoAlign
deriving DecidableEq

/-- Decode-offset selection of `read_dmp_fifo` (mpu9250.c lines 1357-1377),
applied to the FIFO count `c` in effect after the resynchronization step:
two packets select offset `packet_len`, the `fifo_count==FIFO_LEN_NO_MAG ||
packet_len==FIFO_LEN_MAG` branch selects offset 0, and anything else is the
defensive `false interrupt` failure. -/
def fifo_select (packet_len c : ℕ) : FifoAlign :=
  if c = 2 * packet_len then .decodeAt packet_len
  else if c = FIFO_LEN_NO_MAG ∨ packet_len = FIFO_LEN_MAG then .decodeAt 0
  else .falseInterrupt

/-- FIFO count alignment of `read_dmp_fifo` (mpu9250.c lines 1311-1377).
`fifo_count` is the first value read from `FIFO_COUNTH`; `reread` is the
value produced by the second count read after the 2.5 ms grace interval
(`none` models an i2c error of that read).  The second component of the
result records whether `mpu_reset_fifo` was called. -/
def fifo_align (packet_len fifo_count : ℕ) (reread : Option ℕ)
    (show_warnings first_run : Bool) : FifoAlign × Bool :=
  -- line 1323: more than two packets present means something really bad
  -- happened; reset the fifo and fail
  if fifo_count > 2 * packet_len then (.resetFail, true)
  -- line 1333: one or two complete packets are not available; wait 2.5 ms
  -- and read the count once more
  else if fifo_count ≠ packet_len ∧ fifo_count < 2 * packet_len then
    match reread with
    | none => (.i2cFail, false)
    | some c2 =>
      -- line 1348: still not enough bytes, must be a bad read
      if c2 ≠ packet_len ∧ c2 ≠ 2 * packet_len then
        (.badCount (show_warnings && !first_run), show_warnings && !first_run)
      else
        (fifo_select packet_len c2, false)
  else
    (fifo_select packet_len fifo_count, false)

/-!
Packet decoding of `read_dmp_fifo` (mpu9250.c lines 1394-1514).
-/

/-- Caller-visible sample (`imu_data_t`, bb_blue_api.h lines 552-577).
C `float` fields are modelled over `ℚ`; raw readings over `ℤ`. -/
structure ImuData where
  accel : ℚ × ℚ × ℚ
  gyro : ℚ × ℚ × ℚ
  mag : ℚ × ℚ × ℚ
  raw_accel : ℤ × ℤ × ℤ
  raw_gyro : ℤ × ℤ × ℤ
  accel_to_ms2 : ℚ
  gyro_to_degs : ℚ
  dmp_quat : ℚ × ℚ × ℚ × ℚ
  dmp_TaitBryan : ℚ × ℚ × ℚ
  fused_quat : ℚ × ℚ × ℚ × ℚ
  fused_TaitBryan : ℚ × ℚ × ℚ
  compass_heading : ℚ
deriving DecidableEq

/-- Magnetometer calibration state held in the driver's globals
(`mag_factory_adjust`, `mag_offsets`, `mag_scales`). -/
structure MagCal where
  mag_factory_adjust : ℚ × ℚ × ℚ
  mag_offsets : ℚ × ℚ × ℚ
  mag_scales : ℚ × ℚ × ℚ
deriving DecidableEq

/-- Modelled from the spec: the raw-to-microtesla conversion factor
`MAG_RAW_TO_uT` comes from a header missing from `src/` (0.15 µT/LSB for the
AK8963 in 16-bit mode). -/
def MAG_RAW_TO_uT : ℚ := 3 / 20

/-- Modelled from the spec: the magnetometer saturation flag mask
`MAGNETOMETER_SATURATION` comes from a header missing from `src/` (the HOFL
overflow bit of the AK8963 status byte). -/
def MAGNETOMETER_SATURATION : ℕ := 8

/-- Byte access into the decode window, `raw[i + k]` with the window starting
at the decode offset `i` selected by `fifo_align`. -/
def byteAt (w : List ℕ) (k : ℕ) : ℕ := w.getD k 0

/-- Big-endian signed 32-bit quaternion component parse
(mpu9250.c lines 1439-1446), `k` the first of its four byte positions. -/
def quatAt (w : List ℕ) (k : ℕ) : ℤ :=
  toInt32 (byteAt w k * 2 ^ 24 + byteAt w (k + 1) * 2 ^ 16 +
    byteAt w (k + 2) * 2 ^ 8 + byteAt w (k + 3))

/-- Scaled squared magnitude of the packet's quaternion as `read_dmp_fifo`
computes it (lines 1456-1461): each component is shifted right by 16 bits
arithmetically and the squares are summed in 32-bit `long` arithmetic.
The quaternion block starts 7 bytes into the window when the magnetometer
block is present. -/
def fifo_quat_mag_sq (packet_len : ℕ) (w : List ℕ) : ℤ :=
  let q : ℕ := if packet_len = FIFO_LEN_MAG then 7 else 0
  let q14_0 := asr16 (quatAt w q)
  let q14_1 := asr16 (quatAt w (q + 4))
  let q14_2 := asr16 (quatAt w (q + 8))
  let q14_3 := asr16 (quatAt w (q + 12))
  wrap32 (q14_0 * q14_0 + q14_1 * q14_1 + q14_2 * q14_2 + q14_3 * q14_3)

/-- Packet decode step of `read_dmp_fifo` (mpu9250.c lines 1394-1514),
operating on the window `w` of `packet_len` bytes starting at the decode
offset chosen by the alignment step.  The running buffer index `i` of the
source (which starts at the decode offset and advances by 7, 16, 6, 6) is
normalized here to window-relative positions.  `normQ` and `q2tb` stand for
`normalizeQuaternion` and `quaternionToTaitBryan` and `fuse` for
`data_fusion`, all defined in files missing from `src/`.  The result is the
pair of the success flag (`true` for return value 0) and the resulting
caller-visible sample: the source mutates `data_ptr` in place, so the
magnetometer field update at lines 1429-1431 persists even when the
quaternion check later fails. -/
def read_dmp_packet (packet_len : ℕ) (w : List ℕ) (cal : MagCal)
    (normQ : ℚ × ℚ × ℚ × ℚ → ℚ × ℚ × ℚ × ℚ)
    (q2tb : ℚ × ℚ × ℚ × ℚ → ℚ × ℚ × ℚ)
    (fuse : ImuData → ImuData) (d : ImuData) : Bool × ImuData :=
  -- lines 1394-1436: magnetometer block, present only in 35-byte packets
  let magStep : ImuData × Bool :=
    if packet_len = FIFO_LEN_MAG then
      -- line 1399: discard mag data if the readings saturated
      if byteAt w 6 &&& MAGNETOMETER_SATURATION ≠ 0 then (d, false)
      else
        -- lines 1405-1407: little-endian signed 16-bit mag values
        let a0 := toInt16 (byteAt w 1 * 2 ^ 8 + byteAt w 0)
        let a1 := toInt16 (byteAt w 3 * 2 ^ 8 + byteAt w 2)
        let a2 := toInt16 (byteAt w 5 * 2 ^ 8 + byteAt w 4)
        -- line 1415: only save non-zero data
        if a0 ≠ 0 ∨ a1 ≠ 0 ∨ a2 ≠ 0 then
          -- lines 1420-1422: factory sensitivity adjust, unit conversion,
          -- and the vendor-mandated axis reorder (x/y swapped, z negated)
          let f0 := (a1 : ℚ) * cal.mag_factory_adjust.2.1 * MAG_RAW_TO_uT
          let f1 := (a0 : ℚ) * cal.mag_factory_adjust.1 * MAG_RAW_TO_uT
          let f2 := -(a2 : ℚ) * cal.mag_factory_adjust.2.2 * MAG_RAW_TO_uT
          -- lines 1426-1431: guard zero scales to 1, apply own calibration
          let s0 := if cal.mag_scales.1 = 0 then 1 else cal.mag_scales.1
          let s1 := if cal.mag_scales.2.1 = 0 then 1 else cal.mag_scales.2.1
          let s2 := if cal.mag_scales.2.2 = 0 then 1 else cal.mag_scales.2.2
          ({ d with mag := ((f0 - cal.mag_offsets.1) * s0,
                           (f1 - cal.mag_offsets.2.1) * s1,
                           (f2 - cal.mag_offsets.2.2) * s2) }, true)
        else (d, false)
    else (d, false)
  let d1 := magStep.1
  let is_new_mag_data := magStep.2
  -- quaternion block starts after the 7 magnetometer bytes if present
  let q : ℕ := if packet_len = FIFO_LEN_MAG then 7 else 0
  -- lines 1456-1466: scaled squared magnitude tolerance check
  if fifo_quat_mag_sq packet_len w < QUAT_MAG_SQ_MIN ∨
      QUAT_MAG_SQ_MAX < fifo_quat_mag_sq packet_len w then
    (false, d1)
  else
    -- lines 1469-1475: load quaternion, normalize, derive Tait-Bryan angles
    let quat : ℚ × ℚ × ℚ × ℚ :=
      ((quatAt w q : ℚ), (quatAt w (q + 4) : ℚ),
       (quatAt w (q + 8) : ℚ), (quatAt w (q + 12) : ℚ))
    let nq := normQ quat
    let d2 := { d1 with dmp_quat := nq, dmp_TaitBryan := q2tb nq }
    -- lines 1482-1490: big-endian accel parse and unit scaling
    let ra0 := toInt16 (byteAt w (q + 16) * 2 ^ 8 + byteAt w (q + 17))
    let ra1 := toInt16 (byteAt w (q + 18) * 2 ^ 8 + byteAt w (q + 19))
    let ra2 := toInt16 (byteAt w (q + 20) * 2 ^ 8 + byteAt w (q + 21))
    let d3 := { d2 with
      raw_accel := (ra0, ra1, ra2),
      accel := ((ra0 : ℚ) * d2.accel_to_ms2, (ra1 : ℚ) * d2.accel_to_ms2,
                (ra2 : ℚ) * d2.accel_to_ms2) }
    -- lines 1494-1500: big-endian gyro parse and unit scaling
    let rg0 := toInt16 (byteAt w (q + 22) * 2 ^ 8 + byteAt w (q + 23))
    let rg1 := toInt16 (byteAt w (q + 24) * 2 ^ 8 + byteAt w (q + 25))
    let rg2 := toInt16 (byteAt w (q + 26) * 2 ^ 8 + byteAt w (q + 27))
    let d4 := { d3 with
      raw_gyro := (rg0, rg1, rg2),
      gyro := ((rg0 : ℚ) * d3.gyro_to_degs, (rg1 : ℚ) * d3.gyro_to_degs,
               (rg2 : ℚ) * d3.gyro_to_degs) }
    -- lines 1506-1511: run data_fusion only when new mag data came in
    let d5 := if is_new_mag_data then fuse d4 else d4
    (true, d5)

/-- Bytes of the FIFO buffer visible to the decode step: the window of
`packet_len` bytes starting at decode offset `off` of the raw FIFO read. -/
def fifo_window (raw : ℕ → ℕ) (off packet_len : ℕ) : List ℕ :=
  (List.range packet_len).map fun k => raw (off + k)

/-- Composition of the alignment step, the FIFO buffer read, and the packet
decode of `read_dmp_fifo` (mpu9250.c lines 1311-1514).  `raw` gives the
bytes the FIFO read at line 1381 returns (index 0 is the first byte read).
The result carries the success flag and resulting sample, whether
`mpu_reset_fifo` was called, and the decode offset used (`none` when the
invocation failed before decoding). -/
def read_dmp_fifo_model (packet_len fifo_count : ℕ) (reread : Option ℕ)
    (raw : ℕ → ℕ) (cal : MagCal)
    (normQ : ℚ × ℚ × ℚ × ℚ → ℚ × ℚ × ℚ × ℚ)
    (q2tb : ℚ × ℚ × ℚ × ℚ → ℚ × ℚ × ℚ)
    (fuse : ImuData → ImuData) (d : ImuData)
    (show_warnings first_run : Bool) : (Bool × ImuData) × Bool × Option ℕ :=
  match fifo_align packet_len fifo_count reread show_warnings first_run with
  | (.decodeAt off, rst) =>
    (read_dmp_packet packet_len (fifo_window raw off packet_len) cal
       normQ q2tb fuse d, rst, some off)
  | (_, rst) => ((false, d), rst, none)

/-- A sample value with all fields zeroed, used to instantiate theorems at
concrete inputs. -/
def sample0 : ImuData :=
  ⟨(0, 0, 0), (0, 0, 0), (0, 0, 0), (0, 0, 0), (0, 0, 0), 0, 0,
   (0, 0, 0, 0), (0, 0, 0), (0, 0, 0, 0), (0, 0, 0), 0⟩

/-- A magnetometer calibration value with identity adjustment and scales,
used to instantiate theorems at concrete inputs. -/
def magcal0 : MagCal := ⟨(1, 1, 1), (0, 0, 0), (1, 1, 1)⟩

/-- Concrete decoder invocation refuting claim C1 as stated: a 35-byte
packet whose first byte is 1 and all other bytes are 0. -/
def c1run : (Bool × ImuData) × Bool × Option ℕ :=
  read_dmp_fifo_model 35 35 none (fun k => if k = 0 then 1 else 0) magcal0
    (fun q => q) (fun _ => (0, 0, 0)) (fun x => x) sample0 false false

/-- The decode window of the `c1run` invocation. -/
def c1window : List ℕ := 1 :: List.replicate 34 0

/-!
Yaw fusion filter of `data_fusion` (mpu9250.c lines 1528-1657).
-/

/-- Wrap into `[0, 2π]` exactly as the source does at lines 1617-1619 and
1640-1643: subtract one turn if above it, add one turn if negative. -/
def yaw_wrap (twoPi x : ℚ) : ℚ :=
  if x > twoPi then x - twoPi else if x < 0 then x + twoPi else x

/-- Wrap the compass-minus-gyro yaw difference into `[-π, π)` exactly as
the source does at lines 1624-1628. -/
def yaw_diff_wrap (pi d : ℚ) : ℚ :=
  if d ≥ pi then d - 2 * pi else if d < -pi then d + 2 * pi else d

/-- Result of the yaw portion of `data_fusion`: the return flag, the
`compass_heading` written to the sample, the static `lastYaw` stored for
the next cycle, and the yaw written to `fused_TaitBryan` (`none` when the
function returned early without writing it). -/
structure FusionOut where
  success : Bool
  compass_heading : ℚ
  lastYaw : ℚ
  fusedYaw : Option ℚ
deriving DecidableEq

/-- Yaw filter of `data_fusion` (mpu9250.c lines 1596-1655), beginning at
the compass-yaw computation.  `pi` models the float constant `PI`;
`newMagYaw0` is the value `-atan2f(magQuat[QUAT_Y], magQuat[QUAT_X])`
computed from the tilt-compensated magnetic field vector (the
trigonometric vector library is missing from `src/`, so that value is
taken as an input, and the NaN early exit at line 1597 has no counterpart
over `ℚ`).  `lastYaw` and `first_run` are the function's static locals,
`deltaDMPYaw` the gyro yaw increment of this cycle, and `yaw_mix_factor`
and `sample_rate` the constants of the blend fraction at line 1636. -/
def data_fusion_yaw (pi yaw_mix_factor sample_rate newMagYaw0 lastYaw
    deltaDMPYaw : ℚ) (first_run : Bool) : FusionOut :=
  -- lines 1605-1606: record the raw heading, then make it positive
  let newMagYaw := if newMagYaw0 < 0 then 2 * pi + newMagYaw0 else newMagYaw0
  -- lines 1609-1612: on the first run seed the filter from the compass
  let lastYaw1 := if first_run then newMagYaw else lastYaw
  -- lines 1616-1619: propagate previous fused yaw by the DMP delta, wrapped
  let newYaw2 := yaw_wrap (2 * pi) (lastYaw1 + deltaDMPYaw)
  -- lines 1624-1628: wrapped difference between compass and gyro yaw
  let dM := yaw_diff_wrap pi (newMagYaw - newYaw2)
  -- lines 1632-1635: divide-by-zero guard on the mixing factor
  if yaw_mix_factor = 0 then ⟨false, newMagYaw0, lastYaw1, none⟩
  else
    -- lines 1636-1644: blend a fraction of the error in and re-wrap
    let newYaw4 := yaw_wrap (2 * pi)
      (newYaw2 + dM * 100 / (yaw_mix_factor * sample_rate))
    -- lines 1648-1650: shift into (-π, π] for external consumption
    ⟨true, newMagYaw0, newYaw4,
     some (if newYaw4 > pi then newYaw4 - 2 * pi else newYaw4)⟩

/-!
Interrupt-driven sampler task `imu_interrupt_handler`
(mpu9250.c lines 1201-1253).
-/

/-- One wake of the sampler's poll loop: either the poll timed out (or woke
without the expected `POLLPRI` event), or the expected falling edge arrived
and the subsequent `read_dmp_fifo` call returned success (`decode_ok`). -/
inductive SamplerEvent where
  | timeout : SamplerEvent
  | edge (decode_ok : Bool) : SamplerEvent
deriving DecidableEq

/-- The sampler loop's mutable state: the local `first_run` flag and the
global `last_read_successful` flag. -/
structure SamplerState where
  first_run : Bool
  last_read_successful : Bool
deriving DecidableEq

/-- Body of the sampler's poll loop (mpu9250.c lines 1216-1246) for one
wake.  On an edge the decode runs and `last_read_successful` records its
outcome regardless of `first_run`; the user callback is invoked exactly
once, within the same iteration, unless this is the very first edge
(`first_run`) or callbacks are stopped (`interrupt_running` false).  The
second component counts user-callback invocations performed during the
step. -/
def sampler_step (interrupt_running : Bool) (s : SamplerState)
    (e : SamplerEvent) : SamplerState × ℕ :=
  match e with
  | .timeout => (s, 0)
  | .edge ok =>
    if s.first_run then (⟨false, ok⟩, 0)
    else (⟨false, ok⟩, if interrupt_running then 1 else 0)

/-- The sampler loop run over a finite sequence of wakes, accumulating the
total number of user-callback invocations. -/
def sampler_run (interrupt_running : Bool) (s : SamplerState) :
    List SamplerEvent → SamplerState × ℕ
  | [] => (s, 0)
  | e :: es =>
    let p := sampler_step interrupt_running s e
    let r := sampler_run interrupt_running p.1 es
    (r.1, p.2 + r.2)

/-- Number of edge wakes in a wake sequence. -/
def edgeCount : List SamplerEvent → ℕ
  | [] => 0
  | .timeout :: es => edgeCount es
  | .edge _ :: es => 1 + edgeCount es

/-!
Bring-up validation, sample-rate divider, and firmware upload
(`initialize_imu_dmp`, `mpu_set_sample_rate`, `dmp_set_fifo_rate`,
`mpu_write_mem`, `dmp_load_motion_driver_firmware`).
-/

/-- Modelled from the spec: `DMP_MAX_RATE` comes from a header missing from
`src/`; the spec fixes the device's maximum output rate at 200 Hz and the
error message at mpu9250.c line 458 names 200 as the divisor base. -/
def DMP_MAX_RATE : ℕ := 200

/-- Modelled from the spec: `DMP_MIN_RATE` comes from a header missing from
`src/`; the error message at mpu9250.c line 459 lists 4 Hz as the smallest
acceptable rate. -/
def DMP_MIN_RATE : ℕ := 4

/-- Modelled from the spec: `DMP_SAMPLE_RATE` (the guard of
`dmp_set_fifo_rate`, line 785) comes from the missing header; the DMP runs
at 200 Hz. -/
def DMP_SAMPLE_RATE : ℕ := 200

/-- Modelled from the spec: register address of the sample-rate divider
(`SMPLRT_DIV`), from the missing header (0x19 in the register map). -/
def SMPLRT_DIV : ℕ := 25

/-- Modelled from the spec: register address of `PWR_MGMT_1`, from the
missing header (0x6B in the register map). -/
def PWR_MGMT_1 : ℕ := 107

/-- Modelled from the spec: register address of `WHO_AM_I_MPU9250`, from
the missing header (0x75 in the register map). -/
def WHO_AM_I_MPU9250 : ℕ := 117

/-- Modelled from the spec: register address of `XG_OFFSET_H`, from the
missing header (0x13 in the register map). -/
def XG_OFFSET_H : ℕ := 19

/-- Modelled from the spec: the gpio pin of the IMU interrupt
(`IMU_INTERRUPT_PIN`), from the missing header; mpu9250.c line 15 records
pin 117. -/
def IMU_INTERRUPT_PIN : ℕ := 117

/-- Modelled from the spec: the DMP memory bank size
(`MPU6500_BANK_SIZE`), from the missing header (256 bytes on this part). -/
def MPU6500_BANK_SIZE : ℕ := 256

/-- Firmware upload chunk size (`DMP_LOAD_CHUNK`); the loop comment at
mpu9250.c line 694 records 16 bytes. -/
def DMP_LOAD_CHUNK : ℕ := 16

/-- A hardware/bus side effect, recorded in order of occurrence. -/
inductive HwAction where
  | gpioExport (pin : ℕ) : HwAction
  | gpioSetDir (pin : ℕ) : HwAction
  | gpioSetEdge (pin : ℕ) : HwAction
  | i2cInit : HwAction
  | i2cWriteByte (reg val : ℕ) : HwAction
  | i2cWriteBytes (reg len : ℕ) : HwAction
  | i2cReadByte (reg : ℕ) : HwAction
deriving DecidableEq

/-- `mpu_set_sample_rate` (mpu9250.c lines 1143-1158): range-check the rate,
then write the divider `(1000 / rate) - 1`, truncated to the `uint8_t`
register width, to `SMPLRT_DIV`.  The result is the bus trace and the
success flag (assuming the i2c write itself succeeds). -/
def mpu_set_sample_rate (rate : ℕ) : List HwAction × Bool :=
  if rate > 1000 ∨ rate < 4 then ([], false)
  else ([.i2cWriteByte SMPLRT_DIV ((1000 / rate - 1) % 256)], true)

/-- The divider write of `dmp_set_fifo_rate` (mpu9250.c lines 779-794): the
guard rejects rates above `DMP_SAMPLE_RATE`, then the same divider
`1000 / rate - 1` is written to `SMPLRT_DIV` (the subsequent DMP memory
writes fix the DMP-to-FIFO ratio at 1 and are not traced here). -/
def dmp_set_fifo_rate (rate : ℕ) : List HwAction × Bool :=
  if rate > DMP_SAMPLE_RATE then ([], false)
  else ([.i2cWriteByte SMPLRT_DIV ((1000 / rate - 1) % 256)], true)

/-- `load_gyro_offets` (mpu9250.c lines 1702-1743) at the file level: the
calibration file is `none` when absent, otherwise the list of integers on
its lines.  A missing file prints a warning but returns -1 (failure); a
present file pushes the converted biases to the offset registers. -/
def load_gyro_offets_model (file : Option (List ℤ)) : List HwAction × Bool :=
  match file with
  | none => ([], false)
  | some _ => ([.i2cWriteBytes XG_OFFSET_H 6], true)

/-- The gyro offsets parsed from a present calibration file (the three
`fscanf` values at mpu9250.c line 1720, missing lines read as 0). -/
def load_gyro_offets_values (file : List ℤ) : ℤ × ℤ × ℤ :=
  (file.getD 0 0, file.getD 1 0, file.getD 2 0)

/-- Hardware actions `initialize_imu_dmp` performs between the sample-rate
validation and the gyro calibration load (mpu9250.c lines 463-506): gpio
interrupt pin setup, i2c init, device reset, identity check.  The model
assumes every bus operation succeeds and the identity register reads
0x71. -/
def bringup_pre_cal_trace : List HwAction :=
  [.gpioExport IMU_INTERRUPT_PIN, .gpioSetDir IMU_INTERRUPT_PIN,
   .gpioSetEdge IMU_INTERRUPT_PIN, .i2cInit,
   .i2cWriteByte PWR_MGMT_1 0, .i2cReadByte WHO_AM_I_MPU9250]

/-- `initialize_imu_dmp` (mpu9250.c lines 446-614) as a hardware-trace
model: the two sample-rate checks at lines 450-461 run before the first
hardware access at line 464; a missing gyro calibration file makes
`load_gyro_offets` fail and aborts bring-up at lines 508-513; otherwise
configuration continues through `mpu_set_sample_rate` and
`dmp_set_fifo_rate` (later firmware and feature steps are not traced;
every bus operation is assumed to succeed). -/
def initialize_imu_dmp_model (rate : ℕ) (gyro_cal_file : Option (List ℤ)) :
    List HwAction × Bool :=
  -- lines 450-454: range check before any hardware access
  if rate > DMP_MAX_RATE ∨ rate < DMP_MIN_RATE then ([], false)
  -- lines 457-461: divisor-of-200 check before any hardware access
  else if DMP_MAX_RATE % rate ≠ 0 then ([], false)
  else
    match gyro_cal_file with
    | none => (bringup_pre_cal_trace, false)
    | some _ =>
      (bringup_pre_cal_trace ++ (load_gyro_offets_model gyro_cal_file).1 ++
        (mpu_set_sample_rate rate).1 ++ (dmp_set_fifo_rate rate).1, true)

/-- `mpu_write_mem` (mpu9250.c lines 625-645): the low byte of `mem_addr`
is the offset within the bank; a write whose offset plus length crosses
`MPU6500_BANK_SIZE` is rejected before any bus transaction.  (`data` models
the C pointer; its null check precedes the boundary check and is not
representable for a list.) -/
def mpu_write_mem (mem_addr length : ℕ) (_data : List ℕ) :
    List HwAction × Bool :=
  if mem_addr % 256 + length > MPU6500_BANK_SIZE then ([], false)
  else ([.i2cWriteBytes 109 2, .i2cWriteBytes 111 length], true)

/-- Result of the firmware upload, mirroring the three return values of
`dmp_load_motion_driver_firmware`: 0 for success, -1 for a transport
failure, -2 for a write/readback mismatch. -/
inductive FirmwareLoadResult where
  | ok : FirmwareLoadResult
  | transportError : FirmwareLoadResult
  | corruptionError : FirmwareLoadResult
deriving DecidableEq

/-- The chunk loop of `dmp_load_motion_driver_firmware` (mpu9250.c lines
696-710), from chunk start `ii`, with `fuel` bounding the number of
iterations.  `rb ii` gives the bytes the device returns when chunk `ii` is
read back (a result of the wrong length models a failed `mpu_read_mem`).
The second component lists the start addresses of the chunks written, in
order. -/
def dmp_load_from (fw : List ℕ) (rb : ℕ → List ℕ) :
    ℕ → ℕ → FirmwareLoadResult × List ℕ
  | 0, _ => (.ok, [])
  | fuel + 1, ii =>
    if ii < fw.length then
      let tw := min DMP_LOAD_CHUNK (fw.length - ii)
      let chunk := (fw.drop ii).take tw
      -- line 698: mpu_write_mem enforces the bank boundary before the bus
      if ii % 256 + tw > MPU6500_BANK_SIZE then (.transportError, [])
      else
        let rd := rb ii
        -- line 702: mpu_read_mem fails on a short read
        if rd.length ≠ tw then (.transportError, [ii])
        -- line 706: memcmp mismatch is corruption, return -2, abort
        else if rd ≠ chunk then (.corruptionError, [ii])
        else
          let rest := dmp_load_from fw rb fuel (ii + tw)
          (rest.1, ii :: rest.2)
    else (.ok, [])

/-- `dmp_load_motion_driver_firmware` (mpu9250.c lines 683-720): upload the
image in 16-byte chunks from address 0 (the program-start write after the
loop is not traced). -/
def dmp_load_motion_driver_firmware (fw : List ℕ) (rb : ℕ → List ℕ) :
    FirmwareLoadResult × List ℕ :=
  dmp_load_from fw rb fw.length 0

/-!
Calibration persistence and the magnetometer fit acceptance
(`write_gyro_offets_to_disk`, `load_gyro_offets`, `write_mag_cal_to_disk`,
`load_mag_calibration`, `calibrate_mag_routine`).
-/

/-- Decimal formatting of one `%f` value in `write_mag_cal_to_disk`
(mpu9250.c line 2006): `fprintf` renders six digits after the decimal
point, rounding to the nearest multiple of `10⁻⁶`. -/
def round6 (x : ℚ) : ℚ := (round (x * 1000000) : ℤ) / 1000000

/-- `write_gyro_offets_to_disk` (mpu9250.c lines 1665-1694) at the file
level: the three offsets are printed with `%d`, one per line, losslessly. -/
def write_gyro_offets_to_disk_model (offsets : ℤ × ℤ × ℤ) : List ℤ :=
  [offsets.1, offsets.2.1, offsets.2.2]

/-- `write_mag_cal_to_disk` (mpu9250.c lines 1984-2020) at the file level:
three offsets then three scales, each printed with `%f` (six decimal
digits). -/
def write_mag_cal_to_disk_model (offsets scale : ℚ × ℚ × ℚ) : List ℚ :=
  [round6 offsets.1, round6 offsets.2.1, round6 offsets.2.2,
   round6 scale.1, round6 scale.2.1, round6 scale.2.2]

/-- `load_mag_calibration` (mpu9250.c lines 2028-2061): the six `fscanf`
values populate `mag_offsets` then `mag_scales` (missing lines read as
0). -/
def load_mag_calibration_model (file : List ℚ) :
    (ℚ × ℚ × ℚ) × (ℚ × ℚ × ℚ) :=
  ((file.getD 0 0, file.getD 1 0, file.getD 2 0),
   (file.getD 3 0, file.getD 4 0, file.getD 5 0))

/-- The fit-acceptance tail of `calibrate_mag_routine` (mpu9250.c lines
2178-2207), taking the fitted ellipsoid center and axis lengths produced
by `fitEllipsoid` and the current contents of the persisted calibration
store.  A center component of magnitude above 70 µT, or an axis length
above 140 or below 5 µT, rejects the fit and leaves the store untouched;
otherwise the per-axis scales `70 / length` are computed and the center
and scales are persisted. -/
def calibrate_mag_finish (store : Option (List ℚ))
    (center lengths : ℚ × ℚ × ℚ) : Option (List ℚ) × Bool :=
  -- lines 2179-2185: sanity check on the fitted center
  if |center.1| > 70 ∨ |center.2.1| > 70 ∨ |center.2.2| > 70 then
    (store, false)
  -- lines 2186-2193: sanity check on the fitted axis lengths
  else if lengths.1 > 140 ∨ lengths.1 < 5 ∨ lengths.2.1 > 140 ∨
      lengths.2.1 < 5 ∨ lengths.2.2 > 140 ∨ lengths.2.2 < 5 then
    (store, false)
  else
    -- lines 2198-2205: scale factors mapping each axis to the 70 µT sphere
    (some (write_mag_cal_to_disk_model center
      (70 / lengths.1, 70 / lengths.2.1, 70 / lengths.2.2)), true)

/-!
Sanity examples of the embedding on concrete inputs.
-/

example : fifo_align 28 28 none false false = (.decodeAt 0, false) := by decide
example : fifo_align 35 70 none false false = (.decodeAt 35, false) := by decide
example : fifo_align 28 57 none false false = (.resetFail, true) := by decide
example : fifo_align 28 10 (some 56) false false = (.decodeAt 28, false) := by
  decide
example : fifo_align 28 10 (some 11) true false = (.badCount true, true) := by
  decide
example : mpu_set_sample_rate 100 = ([.i2cWriteByte SMPLRT_DIV 9], true) := by
  decide
example : (initialize_imu_dmp_model 42 (some [0, 0, 0])).2 = false := by decide
example : edgeCount [.edge true, .timeout, .edge false] = 2 := by decide

/-!
Claim theorems.
-/

/-- With a valid packet length, the offset selection on a FIFO count equal
to one of the two valid totals picks offset `packet_len` for a double packet
and offset 0 for a single one. -/
lemma fifo_select_cases (L c : ℕ) (hL : L = 28 ∨ L = 35)
    (hc : c = L ∨ c = 2 * L) :
    fifo_select L c = .decodeAt (if c = 2 * L then L else 0) := by
  rcases hL with h | h <;> subst h <;> rcases hc with h | h <;> subst h <;>
    decide

/-- A FIFO count of exactly one packet aligns to decode offset 0 with no
reset. -/
lemma fifo_align_single (L : ℕ) (hL : L = 28 ∨ L = 35) (r : Option ℕ)
    (sw fr : Bool) : fifo_align L L r sw fr = (.decodeAt 0, false) := by
  have h0 : ¬ L > 2 * L := by omega
  have h1 : ¬ (L ≠ L ∧ L < 2 * L) := fun h => h.1 rfl
  rw [fifo_align.eq_def, if_neg h0, if_neg h1,
    fifo_select_cases L L hL (Or.inl rfl)]
  have : ¬ L = 2 * L := by rcases hL with h | h <;> subst h <;> decide
  rw [if_neg this]

/-- A FIFO count of exactly two packets aligns to decode offset
`packet_len` with no reset. -/
lemma fifo_align_double (L : ℕ) (hL : L = 28 ∨ L = 35) (r : Option ℕ)
    (sw fr : Bool) : fifo_align L (2 * L) r sw fr = (.decodeAt L, false) := by
  have h0 : ¬ 2 * L > 2 * L := by omega
  have h1 : ¬ (2 * L ≠ L ∧ 2 * L < 2 * L) := fun h => absurd h.2 (by omega)
  rw [fifo_align.eq_def, if_neg h0, if_neg h1,
    fifo_select_cases L (2 * L) hL (Or.inr rfl), if_pos rfl]

/-- A FIFO count above two packets forces a reset and fails. -/
lemma fifo_align_overflow (L c : ℕ) (hc : 2 * L < c) (r : Option ℕ)
    (sw fr : Bool) : fifo_align L c r sw fr = (.resetFail, true) := by
  rw [fifo_align.eq_def, if_pos hc]

/-- Claim C10: in every invocation of `read_dmp_fifo` that reaches the
decode-offset selection step, given the entry guard that `packet_len` is 28
or 35, the selected offset is always 0 or `packet_len` and the final `false
interrupt` fallback branch is unreachable: no input to the alignment step
produces the `falseInterrupt` outcome. -/
theorem C10_no_false_interrupt (L c : ℕ) (hL : L = 28 ∨ L = 35)
    (reread : Option ℕ) (sw fr : Bool) :
    (fifo_align L c reread sw fr).1 ≠ FifoAlign.falseInterrupt ∧
    ∀ off, (fifo_align L c reread sw fr).1 = FifoAlign.decodeAt off →
      off = 0 ∨ off = L := by
  have hsel : ∀ c', c' = L ∨ c' = 2 * L →
      fifo_select L c' ≠ FifoAlign.falseInterrupt ∧
      ∀ off, fifo_select L c' = FifoAlign.decodeAt off →
        off = 0 ∨ off = L := by
    intro c' hc'
    rw [fifo_select_cases L c' hL hc']
    refine ⟨by simp, fun off h => ?_⟩
    by_cases h2 : c' = 2 * L
    · rw [if_pos h2] at h
      exact Or.inr (FifoAlign.decodeAt.inj h).symm
    · rw [if_neg h2] at h
      exact Or.inl (FifoAlign.decodeAt.inj h).symm
  rw [fifo_align.eq_def]
  by_cases h0 : c > 2 * L
  · rw [if_pos h0]
    exact ⟨by simp, fun off h => by simp at h⟩
  · rw [if_neg h0]
    by_cases h1 : c ≠ L ∧ c < 2 * L
    · rw [if_pos h1]
      cases reread with
      | none => exact ⟨by simp, fun off h => by simp at h⟩
      | some c2 =>
        dsimp only
        by_cases h3 : c2 ≠ L ∧ c2 ≠ 2 * L
        · rw [if_pos h3]
          exact ⟨by simp, fun off h => by simp at h⟩
        · rw [if_neg h3]
          exact hsel c2 (by tauto)
    · rw [if_neg h1]
      exact hsel c (by omega)

/-- Closed instance of `C10_no_false_interrupt` at `packet_len = 28` and an
initially partial count that re-reads to a single packet. -/
theorem C10_witness :
    (fifo_align 28 30 (some 28) true true).1 ≠ FifoAlign.falseInterrupt ∧
    ∀ off, (fifo_align 28 30 (some 28) true true).1 =
      FifoAlign.decodeAt off → off = 0 ∨ off = 28 :=
  C10_no_false_interrupt 28 30 (Or.inl rfl) (some 28) true true

/-- Claim C2: with a valid packet length (28 or 35), a FIFO count equal to
`packet_len` decodes at offset 0; a count equal to `2 * packet_len` decodes
at offset `packet_len` and the decoded sample is unchanged if the bytes of
the earlier (stale) packet change — it depends only on the second packet's
bytes; a count exceeding `2 * packet_len` triggers a FIFO/DMP reset and
fails without decoding. -/
theorem C2_fifo_alignment (L : ℕ) (hL : L = 28 ∨ L = 35)
    (reread : Option ℕ) (raw raw' : ℕ → ℕ) (cal : MagCal)
    (normQ : ℚ × ℚ × ℚ × ℚ → ℚ × ℚ × ℚ × ℚ)
    (q2tb : ℚ × ℚ × ℚ × ℚ → ℚ × ℚ × ℚ)
    (fuse : ImuData → ImuData) (d : ImuData) (sw fr : Bool) :
    (read_dmp_fifo_model L L reread raw cal normQ q2tb fuse d sw fr =
      (read_dmp_packet L (fifo_window raw 0 L) cal normQ q2tb fuse d,
       false, some 0)) ∧
    (read_dmp_fifo_model L (2 * L) reread raw cal normQ q2tb fuse d sw fr =
      (read_dmp_packet L (fifo_window raw L L) cal normQ q2tb fuse d,
       false, some L)) ∧
    ((∀ j, L ≤ j → j < 2 * L → raw j = raw' j) →
      read_dmp_fifo_model L (2 * L) reread raw cal normQ q2tb fuse d sw fr =
      read_dmp_fifo_model L (2 * L) reread raw' cal normQ q2tb fuse d
        sw fr) ∧
    (∀ c, 2 * L < c →
      read_dmp_fifo_model L c reread raw cal normQ q2tb fuse d sw fr =
        ((false, d), true, none)) := by
  refine ⟨?_, ?_, ?_, ?_⟩
  · rw [read_dmp_fifo_model, fifo_align_single L hL]
  · rw [read_dmp_fifo_model, fifo_align_double L hL]
  · intro hagree
    have hwin : fifo_window raw L L = fifo_window raw' L L := by
      unfold fifo_window
      refine List.map_congr_left fun k hk => ?_
      rw [List.mem_range] at hk
      exact hagree (L + k) (by omega) (by omega)
    rw [read_dmp_fifo_model, fifo_align_double L hL,
      read_dmp_fifo_model, fifo_align_double L hL]
    dsimp only
    rw [hwin]
  · intro c hc
    rw [read_dmp_fifo_model, fifo_align_overflow L c hc]

/-- Closed instance of `C2_fifo_alignment`: with a 35-byte packet and a FIFO
count of 70 the decode happens at offset 35. -/
theorem C2_witness :
    read_dmp_fifo_model 35 (2 * 35) (some 35) (fun _ => 0) magcal0
      (fun q => q) (fun _ => (0, 0, 0)) (fun x => x) sample0 false false =
    (read_dmp_packet 35 (fifo_window (fun _ => 0) 35 35) magcal0
      (fun q => q) (fun _ => (0, 0, 0)) (fun x => x) sample0,
     false, some 35) :=
  (C2_fifo_alignment 35 (Or.inr rfl) (some 35) (fun _ => 0) (fun _ => 0)
    magcal0 (fun q => q) (fun _ => (0, 0, 0)) (fun x => x) sample0
    false false).2.1

lemma c1run_eq : c1run = (read_dmp_packet 35 c1window magcal0
    (fun q => q) (fun _ => (0, 0, 0)) (fun x => x) sample0,
    false, some 0) := by
  unfold c1run read_dmp_fifo_model
  rw [show fifo_align 35 35 none false false = (.decodeAt 0, false) from by
    decide]
  dsimp only
  rw [show fifo_window (fun k => if k = 0 then 1 else 0) 0 35 = c1window
    from by decide]

lemma c1_mag_eq : (read_dmp_packet 35 c1window magcal0 (fun q => q)
    (fun _ => (0, 0, 0)) (fun x => x) sample0).2.mag = (0, 3 / 20, 0) := by
  have hb0 : byteAt c1window 0 = 1 := by decide
  have hb1 : byteAt c1window 1 = 0 := by decide
  have hb2 : byteAt c1window 2 = 0 := by decide
  have hb3 : byteAt c1window 3 = 0 := by decide
  have hb4 : byteAt c1window 4 = 0 := by decide
  have hb5 : byteAt c1window 5 = 0 := by decide
  have hb6 : byteAt c1window 6 = 0 := by decide
  unfold read_dmp_packet
  dsimp only
  rw [if_pos (show fifo_quat_mag_sq 35 c1window < QUAT_MAG_SQ_MIN ∨
    QUAT_MAG_SQ_MAX < fifo_quat_mag_sq 35 c1window from Or.inl (by decide))]
  simp only [hb0, hb1, hb2, hb3, hb4, hb5, hb6, magcal0, sample0]
  norm_num [FIFO_LEN_MAG, MAGNETOMETER_SATURATION, MAG_RAW_TO_uT, toInt16]

/-- Claim C1 as stated is false: in this invocation the quaternion's scaled
squared magnitude is below the tolerance band and the decoder returns
failure, yet the caller-visible magnetometer field has changed, because
`read_dmp_fifo` writes valid new magnetometer data into the sample before
the quaternion check. -/
theorem C1_counterexample :
    fifo_quat_mag_sq 35 c1window < QUAT_MAG_SQ_MIN ∧
    c1run.1.1 = false ∧ c1run.1.2.mag ≠ sample0.mag := by
  refine ⟨by decide, ?_, ?_⟩
  · rw [c1run_eq]
    decide
  · rw [c1run_eq]
    dsimp only
    rw [c1_mag_eq]
    norm_num [sample0]

/-- Claim C1 amended: for every invocation of the FIFO decoder in which the
quaternion's scaled squared magnitude lies outside the fixed tolerance
band, the decoder returns failure and the quaternion, Euler angle,
accelerometer and gyroscope fields of the caller-visible sample (together
with the fused outputs and compass heading) are left unchanged from the
previous good decode; the magnetometer field alone may already have been
updated, since it is written before the quaternion check. -/
theorem C1_amended (L : ℕ) (w : List ℕ)
    (cal : MagCal) (normQ : ℚ × ℚ × ℚ × ℚ → ℚ × ℚ × ℚ × ℚ)
    (q2tb : ℚ × ℚ × ℚ × ℚ → ℚ × ℚ × ℚ) (fuse : ImuData → ImuData)
    (d : ImuData)
    (hout : fifo_quat_mag_sq L w < QUAT_MAG_SQ_MIN ∨
      QUAT_MAG_SQ_MAX < fifo_quat_mag_sq L w) :
    (read_dmp_packet L w cal normQ q2tb fuse d).1 = false ∧
    (read_dmp_packet L w cal normQ q2tb fuse d).2.dmp_quat = d.dmp_quat ∧
    (read_dmp_packet L w cal normQ q2tb fuse d).2.dmp_TaitBryan =
      d.dmp_TaitBryan ∧
    (read_dmp_packet L w cal normQ q2tb fuse d).2.raw_accel = d.raw_accel ∧
    (read_dmp_packet L w cal normQ q2tb fuse d).2.accel = d.accel ∧
    (read_dmp_packet L w cal normQ q2tb fuse d).2.raw_gyro = d.raw_gyro ∧
    (read_dmp_packet L w cal normQ q2tb fuse d).2.gyro = d.gyro ∧
    (read_dmp_packet L w cal normQ q2tb fuse d).2.fused_quat =
      d.fused_quat ∧
    (read_dmp_packet L w cal normQ q2tb fuse d).2.fused_TaitBryan =
      d.fused_TaitBryan ∧
    (read_dmp_packet L w cal normQ q2tb fuse d).2.compass_heading =
      d.compass_heading := by
  unfold read_dmp_packet
  dsimp only
  rw [if_pos hout]
  split_ifs <;> simp

/-- Closed instance of `C1_amended` on an all-zero 28-byte packet, whose
quaternion magnitude is zero and therefore below the band. -/
theorem C1_witness :
    (fifo_quat_mag_sq 28 (List.replicate 28 0) < QUAT_MAG_SQ_MIN ∨
      QUAT_MAG_SQ_MAX < fifo_quat_mag_sq 28 (List.replicate 28 0)) ∧
    (read_dmp_packet 28 (List.replicate 28 0) magcal0 (fun q => q)
      (fun _ => (0, 0, 0)) (fun x => x) sample0).1 = false ∧
    (read_dmp_packet 28 (List.replicate 28 0) magcal0 (fun q => q)
      (fun _ => (0, 0, 0)) (fun x => x) sample0).2.dmp_quat =
      sample0.dmp_quat :=
  ⟨by decide,
   (C1_amended 28 (List.replicate 28 0) magcal0 (fun q => q)
     (fun _ => (0, 0, 0)) (fun x => x) sample0 (by decide)).1,
   (C1_amended 28 (List.replicate 28 0) magcal0 (fun q => q)
     (fun _ => (0, 0, 0)) (fun x => x) sample0 (by decide)).2.1⟩

lemma yaw_wrap_id (twoPi x : ℚ) (h0 : 0 ≤ x) (h1 : x ≤ twoPi) :
    yaw_wrap twoPi x = x := by
  unfold yaw_wrap
  rw [if_neg (by linarith), if_neg (by linarith)]

lemma yaw_wrap_bounds (twoPi x : ℚ) (h0 : -twoPi ≤ x)
    (h1 : x ≤ 2 * twoPi) :
    0 ≤ yaw_wrap twoPi x ∧ yaw_wrap twoPi x ≤ twoPi := by
  unfold yaw_wrap
  split_ifs <;> constructor <;> linarith

/-- Claim C6: when the magnetometer-derived compass yaw (after the
positivity adjustment) exactly equals the gyro-propagated yaw, the blended
fused yaw equals the gyro-propagated yaw: the stored filter state is
exactly the propagated yaw and the externally stored fused yaw is the same
angle shifted into `(-π, π]`.  The hypotheses state the filter's normal
operating regime: a positive `π`, a nonzero mixing factor, a stored yaw in
`[0, 2π]` and a per-cycle delta of at most one turn. -/
theorem C6_fusion_idempotence (pi ymf rate magY lastYaw delta : ℚ)
    (hpi : 0 < pi) (hymf : ymf ≠ 0)
    (hl0 : 0 ≤ lastYaw) (hl1 : lastYaw ≤ 2 * pi)
    (hd0 : -(2 * pi) ≤ delta) (hd1 : delta ≤ 2 * pi)
    (heq : (if magY < 0 then 2 * pi + magY else magY) =
      yaw_wrap (2 * pi) (lastYaw + delta)) :
    (data_fusion_yaw pi ymf rate magY lastYaw delta false).success = true ∧
    (data_fusion_yaw pi ymf rate magY lastYaw delta false).lastYaw =
      yaw_wrap (2 * pi) (lastYaw + delta) ∧
    (data_fusion_yaw pi ymf rate magY lastYaw delta false).fusedYaw =
      some (if yaw_wrap (2 * pi) (lastYaw + delta) > pi then
        yaw_wrap (2 * pi) (lastYaw + delta) - 2 * pi
      else yaw_wrap (2 * pi) (lastYaw + delta)) := by
  have hb := yaw_wrap_bounds (2 * pi) (lastYaw + delta)
    (by linarith) (by linarith)
  have hdm : yaw_diff_wrap pi ((if magY < 0 then 2 * pi + magY else magY) -
      yaw_wrap (2 * pi) (lastYaw + delta)) = 0 := by
    rw [heq, sub_self]
    unfold yaw_diff_wrap
    rw [if_neg (by linarith), if_neg (by linarith)]
  unfold data_fusion_yaw
  dsimp only
  rw [if_neg (show ¬ (false = true) from by simp), if_neg hymf, hdm]
  rw [zero_mul, zero_div, add_zero,
    yaw_wrap_id (2 * pi) (yaw_wrap (2 * pi) (lastYaw + delta)) hb.1 hb.2]
  exact ⟨rfl, rfl, rfl⟩

/-- Closed instance of `C6_fusion_idempotence` with `π` modelled as 3, a
stored yaw of 1 and a delta of one half: the compass yaw 3/2 equals the
propagated yaw and the filter returns it unchanged. -/
theorem C6_witness :
    (data_fusion_yaw 3 1 1 (3 / 2) 1 (1 / 2) false).success = true ∧
    (data_fusion_yaw 3 1 1 (3 / 2) 1 (1 / 2) false).lastYaw =
      yaw_wrap (2 * 3) (1 + 1 / 2) ∧
    (data_fusion_yaw 3 1 1 (3 / 2) 1 (1 / 2) false).fusedYaw =
      some (if yaw_wrap (2 * 3) (1 + 1 / 2) > 3 then
        yaw_wrap (2 * 3) (1 + 1 / 2) - 2 * 3
      else yaw_wrap (2 * 3) (1 + 1 / 2)) :=
  C6_fusion_idempotence 3 1 1 (3 / 2) 1 (1 / 2) (by norm_num)
    (by norm_num) (by norm_num) (by norm_num) (by norm_num) (by norm_num)
    (by norm_num [yaw_wrap])

lemma sampler_run_not_first (evs : List SamplerEvent) :
    ∀ b : Bool, (sampler_run true ⟨false, b⟩ evs).2 = edgeCount evs := by
  induction evs with
  | nil => intro b; rfl
  | cons e es ih =>
    intro b
    cases e with
    | timeout => simpa [sampler_run, sampler_step, edgeCount] using ih b
    | edge ok => simp [sampler_run, sampler_step, edgeCount, ih ok]

lemma sampler_run_first (evs : List SamplerEvent) :
    ∀ b : Bool, (sampler_run true ⟨true, b⟩ evs).2 = edgeCount evs - 1 := by
  induction evs with
  | nil => intro b; rfl
  | cons e es ih =>
    intro b
    cases e with
    | timeout => simpa [sampler_run, sampler_step, edgeCount] using ih b
    | edge ok =>
      have hstep : sampler_step true ⟨true, b⟩ (.edge ok) =
        (⟨false, ok⟩, 0) := rfl
      simp only [sampler_run, hstep, edgeCount,
        sampler_run_not_first es ok]
      omega

/-- Claim C7: in the sampler task, a timeout wake does nothing; the very
first edge records the decode outcome but never invokes the user callback;
every subsequent edge invokes the registered user callback exactly once,
within the same loop iteration (before the next wait), whether or not its
decode succeeded, with `last_read_successful` recording the outcome.
Consequently a whole run starting in the first-run state performs one
callback fewer than it has edges. -/
theorem C7_sampler_callbacks (evs : List SamplerEvent) (b b' ok : Bool) :
    (sampler_run true ⟨true, b⟩ evs).2 = edgeCount evs - 1 ∧
    sampler_step true ⟨true, b'⟩ (.edge ok) = (⟨false, ok⟩, 0) ∧
    sampler_step true ⟨false, b'⟩ (.edge ok) = (⟨false, ok⟩, 1) ∧
    sampler_step true ⟨b', b⟩ .timeout = (⟨b', b⟩, 0) :=
  ⟨sampler_run_first evs b, rfl, rfl, rfl⟩

/-- Claim C3 as stated is false: 200 Hz is a device-supported rate that
evenly divides 200, yet the divider written to `SMPLRT_DIV` is
`1000/200 - 1 = 4`, not `200/200 - 1 = 0`. -/
theorem C3_counterexample :
    DMP_MIN_RATE ≤ 200 ∧ 200 ≤ DMP_MAX_RATE ∧ DMP_MAX_RATE % 200 = 0 ∧
    mpu_set_sample_rate 200 = ([.i2cWriteByte SMPLRT_DIV 4], true) ∧
    (200 / 200 - 1 : ℕ) = 0 ∧ (4 : ℕ) ≠ 0 := by decide

/-- Claim C3 amended: for every device-supported sample rate `r` that
evenly divides 200, the rate divider written to `SMPLRT_DIV` (both by
`mpu_set_sample_rate` and by `dmp_set_fifo_rate`) equals `1000/r - 1`, the
sensor's 1 kHz base rate divided down; and every requested rate that does
not evenly divide 200 is rejected by bring-up with no hardware access. -/
theorem C3_amended (r : ℕ) :
    (DMP_MIN_RATE ≤ r → r ≤ DMP_MAX_RATE → DMP_MAX_RATE % r = 0 →
      mpu_set_sample_rate r =
        ([.i2cWriteByte SMPLRT_DIV (1000 / r - 1)], true) ∧
      dmp_set_fifo_rate r =
        ([.i2cWriteByte SMPLRT_DIV (1000 / r - 1)], true)) ∧
    (DMP_MAX_RATE % r ≠ 0 →
      ∀ f, initialize_imu_dmp_model r f = ([], false)) := by
  constructor
  · intro h1 h2 _h3
    have h1' : 4 ≤ r := h1
    have h2' : r ≤ 200 := h2
    have hq : 1000 / r ≤ 250 := by
      calc 1000 / r ≤ 1000 / 4 := Nat.div_le_div_left h1' (by norm_num)
      _ = 250 := by norm_num
    have hmod : (1000 / r - 1) % 256 = 1000 / r - 1 :=
      Nat.mod_eq_of_lt (by omega)
    constructor
    · unfold mpu_set_sample_rate
      rw [if_neg (by omega : ¬ (r > 1000 ∨ r < 4)), hmod]
    · unfold dmp_set_fifo_rate
      rw [if_neg (show ¬ r > DMP_SAMPLE_RATE from by
        simpa [DMP_SAMPLE_RATE] using h2'), hmod]
  · intro hmod f
    unfold initialize_imu_dmp_model
    by_cases hr : r > DMP_MAX_RATE ∨ r < DMP_MIN_RATE
    · rw [if_pos hr]
    · rw [if_neg hr, if_pos hmod]

/-- Closed instance of `C3_amended`: at 100 Hz the divider written is
`1000/100 - 1 = 9`, and the non-divisor rate 7 Hz is rejected with no
hardware access. -/
theorem C3_witness :
    (mpu_set_sample_rate 100 =
        ([.i2cWriteByte SMPLRT_DIV (1000 / 100 - 1)], true) ∧
      dmp_set_fifo_rate 100 =
        ([.i2cWriteByte SMPLRT_DIV (1000 / 100 - 1)], true)) ∧
    initialize_imu_dmp_model 7 none = ([], false) :=
  ⟨(C3_amended 100).1 (by decide) (by decide) (by decide),
   (C3_amended 7).2 (by decide) none⟩

/-- Claim C4 concerns a code bug: when the gyro calibration file is absent,
`load_gyro_offets` prints only a warning ("WARNING: no gyro calibration
data found") and its own header comment says a missing file should lead to
making a new one, yet it returns -1, which `initialize_imu_dmp` treats as
fatal (lines 508-513) — bring-up fails.  With the identical configuration
and a present file, bring-up succeeds. -/
theorem C4_missing_cal_aborts_bringup :
    load_gyro_offets_model none = ([], false) ∧
    (initialize_imu_dmp_model 100 none).2 = false ∧
    (initialize_imu_dmp_model 100 (some [0, 0, 0])).2 = true := by decide

/-- Claim C5: a DMP memory write whose offset-within-bank plus length
would cross the hardware bank boundary is rejected with an error before
any bus transaction; and during firmware upload, a mismatch between a
written chunk and its read-back yields the corruption error code,
distinct from the transport-error code, and aborts the load at that chunk
(no later chunk is written). -/
theorem C5_bank_boundary_and_corruption :
    (∀ addr len data, addr % 256 + len > MPU6500_BANK_SIZE →
      mpu_write_mem addr len data = ([], false)) ∧
    (∀ (fw : List ℕ) (rb : ℕ → List ℕ) (ii fuel : ℕ),
      ii < fw.length →
      ii % 256 + min DMP_LOAD_CHUNK (fw.length - ii) ≤ MPU6500_BANK_SIZE →
      (rb ii).length = min DMP_LOAD_CHUNK (fw.length - ii) →
      rb ii ≠ (fw.drop ii).take (min DMP_LOAD_CHUNK (fw.length - ii)) →
      dmp_load_from fw rb (fuel + 1) ii =
        (FirmwareLoadResult.corruptionError, [ii])) ∧
    FirmwareLoadResult.corruptionError ≠
      FirmwareLoadResult.transportError := by
  refine ⟨fun addr len data h => ?_, fun fw rb ii fuel h1 h2 h3 h4 => ?_,
    by decide⟩
  · unfold mpu_write_mem
    rw [if_pos h]
  · simp only [dmp_load_from]
    rw [if_pos h1, if_neg (by omega)]
    rw [if_neg (fun hc => hc h3), if_pos h4]

/-- Closed instance of `C5_bank_boundary_and_corruption`: a write at bank
offset 250 of 20 bytes is rejected, and a first-chunk readback of zeros
against a firmware of ones aborts with the corruption error. -/
theorem C5_witness :
    mpu_write_mem 250 20 [] = ([], false) ∧
    dmp_load_from (List.replicate 20 1) (fun _ => List.replicate 16 0) 1 0 =
      (FirmwareLoadResult.corruptionError, [0]) :=
  ⟨C5_bank_boundary_and_corruption.1 250 20 [] (by decide),
   C5_bank_boundary_and_corruption.2.1 (List.replicate 20 1)
     (fun _ => List.replicate 16 0) 0 0 (by decide) (by decide) (by decide)
     (by decide)⟩

/-- Claim C8: a fitted ellipsoid whose center magnitude exceeds 70 µT on
any axis, or any of whose axis lengths lies outside `[5, 140]` µT, is
rejected and nothing is persisted (the prior calibration store is
unchanged); on an accepted fit the computed per-axis scale factor is 70
divided by that axis length and it is persisted together with the
center. -/
theorem C8_mag_fit_acceptance (store : Option (List ℚ))
    (center lengths : ℚ × ℚ × ℚ) :
    ((|center.1| > 70 ∨ |center.2.1| > 70 ∨ |center.2.2| > 70) →
      calibrate_mag_finish store center lengths = (store, false)) ∧
    ((lengths.1 > 140 ∨ lengths.1 < 5 ∨ lengths.2.1 > 140 ∨
        lengths.2.1 < 5 ∨ lengths.2.2 > 140 ∨ lengths.2.2 < 5) →
      calibrate_mag_finish store center lengths = (store, false)) ∧
    (|center.1| ≤ 70 → |center.2.1| ≤ 70 → |center.2.2| ≤ 70 →
      5 ≤ lengths.1 → lengths.1 ≤ 140 →
      5 ≤ lengths.2.1 → lengths.2.1 ≤ 140 →
      5 ≤ lengths.2.2 → lengths.2.2 ≤ 140 →
      calibrate_mag_finish store center lengths =
        (some (write_mag_cal_to_disk_model center
          (70 / lengths.1, 70 / lengths.2.1, 70 / lengths.2.2)), true)) := by
  refine ⟨fun h => ?_, fun h => ?_, fun hc1 hc2 hc3 l1a l1b l2a l2b l3a l3b
    => ?_⟩
  · unfold calibrate_mag_finish
    rw [if_pos h]
  · unfold calibrate_mag_finish
    by_cases g1 : |center.1| > 70 ∨ |center.2.1| > 70 ∨ |center.2.2| > 70
    · rw [if_pos g1]
    · rw [if_neg g1, if_pos h]
  · unfold calibrate_mag_finish
    rw [if_neg ?_, if_neg ?_]
    · rintro (h | h | h | h | h | h) <;> linarith
    · rintro (h | h | h) <;> linarith

/-- Closed instance of `C8_mag_fit_acceptance`: a fit with center
(10, 20, 30) and axis lengths (70, 70, 70) is accepted and persisted with
unit scales. -/
theorem C8_witness :
    calibrate_mag_finish (some [9]) (10, 20, 30) (70, 70, 70) =
      (some (write_mag_cal_to_disk_model (10, 20, 30)
        (70 / 70, 70 / 70, 70 / 70)), true) :=
  (C8_mag_fit_acceptance (some [9]) (10, 20, 30) (70, 70, 70)).2.2
    (by norm_num) (by norm_num) (by norm_num) (by norm_num) (by norm_num)
    (by norm_num) (by norm_num) (by norm_num) (by norm_num)

lemma round6_close (x : ℚ) : |round6 x - x| ≤ 1 / 2000000 := by
  unfold round6
  have h : |x * 1000000 - round (x * 1000000)| ≤ 1 / 2 :=
    abs_sub_round (x * 1000000)
  have e : (round (x * 1000000) : ℚ) / 1000000 - x
      = -((x * 1000000 - (round (x * 1000000) : ℤ)) / 1000000) := by
    ring
  rw [e, abs_neg, abs_div, abs_of_pos (show (0 : ℚ) < 1000000 by norm_num)]
  calc |x * 1000000 - (round (x * 1000000) : ℤ)| / 1000000
      ≤ (1 / 2) / 1000000 := by
        apply (div_le_div_iff_of_pos_right
          (show (0 : ℚ) < 1000000 by norm_num)).mpr
        exact_mod_cast h
    _ = 1 / 2000000 := by norm_num

/-- Claim C9: writing gyro calibration to its store and reloading it
reproduces the three offsets exactly; writing magnetometer calibration
(three offsets and three scales) and reloading it reproduces each value to
within the `%f` quantization of six decimal digits, i.e. to within
`1/2000000`. -/
theorem C9_roundtrip (o : ℤ × ℤ × ℤ) (off sc : ℚ × ℚ × ℚ) :
    load_gyro_offets_values (write_gyro_offets_to_disk_model o) = o ∧
    |(load_mag_calibration_model
        (write_mag_cal_to_disk_model off sc)).1.1 - off.1| ≤ 1 / 2000000 ∧
    |(load_mag_calibration_model
        (write_mag_cal_to_disk_model off sc)).1.2.1 - off.2.1|
      ≤ 1 / 2000000 ∧
    |(load_mag_calibration_model
        (write_mag_cal_to_disk_model off sc)).1.2.2 - off.2.2|
      ≤ 1 / 2000000 ∧
    |(load_mag_calibration_model
        (write_mag_cal_to_disk_model off sc)).2.1 - sc.1| ≤ 1 / 2000000 ∧
    |(load_mag_calibration_model
        (write_mag_cal_to_disk_model off sc)).2.2.1 - sc.2.1|
      ≤ 1 / 2000000 ∧
    |(load_mag_calibration_model
        (write_mag_cal_to_disk_model off sc)).2.2.2 - sc.2.2|
      ≤ 1 / 2000000 :=
  ⟨rfl, round6_close off.1, round6_close off.2.1, round6_close off.2.2,
   round6_close sc.1, round6_close sc.2.1, round6_close sc.2.2⟩

end Mpu9250
